import Mathlib

/-!
Verification of the openvpn-peer agent's core against its specification.

The definitions below are shallow embeddings of the Go source:
* the deterministic addressing algebra (`Addressing`, `Address.EndpointId`,
  `Address.TunnelInternalIPs`, `Address.VPNEndpointPorts`),
* the endpoint-id set algebra (`EndpointSet.*`) and the reconciler's diff
  computation from `Manager.Run`,
* the tunnel supervisor's map discipline (`TunnelMgr` model),
* the OpenVPN state-translation monitor.

Machine integers are modelled as `Nat` with explicit truncation where the Go
code can overflow or underflow; a Go runtime panic is modelled as `none` of an
`Option` result.
-/

/-! ### Addressing (src/unnamed/part_004, src/endpoint.go) -/

/-- Sentinel `EndpointId` value `0xffff` (src/endpoint.go). -/
def InvalidEndpointId : Nat := 0xffff

/-- The `Addressing` configuration (src/unnamed/part_004). Prefix lengths and
the start port are Go `int`s holding configuration values; we model them as
naturals. The local IP is carried by `Address` values directly. -/
structure Addressing where
  CommonPrefixLen : Nat
  RegionPrefixLen : Nat
  DCPrefixLen : Nat
  VPNEndpointStartPort : Nat
deriving DecidableEq, Repr

/-- An IPv4 address bound to an `Addressing`. `IP = none` models a nil
`net.IP`; `some raw` is the 32-bit big-endian value of the four bytes. -/
structure Address where
  ing : Addressing
  IP : Option Nat
deriving DecidableEq, Repr

/-- Big-endian byte `idx` of the 32-bit word `w` (index 0 is the most
significant byte), as read from the 4-byte slice Go obtains from a masked
IPv4 address. -/
def byteAt (w idx : Nat) : Nat := (w >>> (8 * (3 - idx))) % 256

/-- Models `net.CIDRMask(ones, 32)`: the 32-bit mask with the top `ones` bits
set, or `none` (Go: a nil mask) when `ones > 32`. -/
def cidrMask (ones : Nat) : Option Nat :=
  if ones ≤ 32 then some ((2 ^ ones - 1) <<< (32 - ones)) else none

/-- Models `ip.Mask(mask)` for a 4-byte IP: bitwise and with the mask; a nil
mask yields a nil result. -/
def ipMask (ip : Nat) (mask : Option Nat) : Option Nat :=
  mask.map (fun m => ip &&& m)

/-- The bit arithmetic of `Address.EndpointId` on the masked address bytes
(src/unnamed/part_004 lines 95-105). The Go locals are inlined:
`firstByteIdx = commonPrefixLen / 8`,
`firstByteShiftOffset = commonPrefixLen % 8`,
`firstByteBits = 8 - firstByteShiftOffset`,
`secondByteBits = 10 - firstByteBits = 10 - (8 - commonPrefixLen % 8)`.

In Go those locals and the shift count `8 - secondByteBits` are `uint`s.
When `commonPrefixLen % 8 = 7`, `secondByteBits = 9` and
`8 - secondByteBits` underflows to `2^64 - 1`; shifting a `uint16` right by
that count yields 0, which the inner `if` reproduces. The left shift is a
`uint16` shift, hence the `% 65536`. -/
def endpointIdBits (commonPrefixLen dcBytes : Nat) : Nat :=
  ((byteAt dcBytes (commonPrefixLen / 8) <<< (commonPrefixLen % 8 + 2)) % 65536 |||
    (if 10 - (8 - commonPrefixLen % 8) ≤ 8 then
      byteAt dcBytes (commonPrefixLen / 8 + 1) >>> (8 - (10 - (8 - commonPrefixLen % 8)))
    else 0)) &&& 0x3ff

/-- Models `Address.EndpointId` (src/unnamed/part_004 lines 69-106).

Result `some v` is a normal return of the `uint16` value `v` (`v` is
`InvalidEndpointId` for a nil IP or a rejected prefix combination); `none`
models a Go runtime panic, which happens when `DCPrefixLen > 32`: then
`net.CIDRMask` returns nil, `ip.Mask(nil)` returns nil, and indexing the nil
`dcBytes` slice panics. The `Option.map` propagates that panic. -/
def Address.EndpointId (addr : Address) : Option Nat :=
  match addr.IP with
  | none => some InvalidEndpointId
  | some ip =>
    if 24 ≤ addr.ing.CommonPrefixLen ∨ addr.ing.DCPrefixLen ≤ addr.ing.CommonPrefixLen ∨
        10 < addr.ing.DCPrefixLen - addr.ing.CommonPrefixLen then
      some InvalidEndpointId
    else
      Option.map (endpointIdBits addr.ing.CommonPrefixLen)
        (ipMask ip (cidrMask addr.ing.DCPrefixLen))

/-- An IPv4 quad as produced by `net.IPv4`. -/
structure IPv4 where
  b0 : Nat
  b1 : Nat
  b2 : Nat
  b3 : Nat
deriving DecidableEq, Repr

/-- The four bytes of a raw 32-bit address, as Go builds them with
`net.IPv4(byte(raw>>24), byte(raw>>16), byte(raw>>8), byte(raw>>0))`. -/
def ipv4FromRaw (raw : Nat) : IPv4 :=
  ⟨(raw >>> 24) % 256, (raw >>> 16) % 256, (raw >>> 8) % 256, (raw >>> 0) % 256⟩

/-- Models `Address.TunnelInternalIPs` (src/unnamed/part_004 lines 108-132).
The pair is (local in-tunnel IP, remote in-tunnel IP); a panic in
`EndpointId` propagates. All `uint32` operations stay below `2^32` because
`localId` and `remoteId` are `uint16` values. -/
def Address.TunnelInternalIPs (addr : Address) (remoteId : Nat) : Option (IPv4 × IPv4) :=
  (Address.EndpointId addr).map (fun localId =>
    let rawBaseAddr := (172 <<< 24) ||| (16 <<< 16)
    let rawLocalAddr := rawBaseAddr ||| (localId <<< 10) ||| remoteId
    let rawRemoteAddr := rawBaseAddr ||| (remoteId <<< 10) ||| localId
    (ipv4FromRaw rawLocalAddr, ipv4FromRaw rawRemoteAddr))

/-- Models `Address.VPNEndpointPorts` (src/unnamed/part_004 lines 134-137):
(local port, remote port). -/
def Address.VPNEndpointPorts (addr : Address) (remoteId : Nat) : Option (Nat × Nat) :=
  (Address.EndpointId addr).map (fun localId =>
    (localId + addr.ing.VPNEndpointStartPort, remoteId + addr.ing.VPNEndpointStartPort))

/-- Modelled from the spec (section 4.1), for comparison with the code: the
`d - c` bits of `ip` starting at bit position `c` (bit 0 being the most
significant bit of the 32-bit address), right-padded with zeros to 10 bits. -/
def specEndpointId (c d ip : Nat) : Nat :=
  ((ip >>> (32 - d)) % 2 ^ (d - c)) <<< (10 - (d - c))

/-! ### Claims about the addressing algebra: C1, C2, and the C3/C4 concrete parts -/

/-- C1: Peer symmetry of the addressing algebra. For every `Addressing`
configuration and every pair of `Address` values `A`, `B` whose `EndpointId`
values `a`, `b` are both valid (in `0..0x3FF`), `A.TunnelInternalIPs b` and
`B.TunnelInternalIPs a` return swapped pairs (A's local in-tunnel IP is B's
remote one and vice versa), and likewise `A.VPNEndpointPorts b` and
`B.VPNEndpointPorts a` return swapped port pairs. -/
theorem tunnelAlgebra_peer_symmetry (ing : Addressing) (ipA ipB : Option Nat) (a b : Nat)
    (ha : Address.EndpointId ⟨ing, ipA⟩ = some a)
    (hb : Address.EndpointId ⟨ing, ipB⟩ = some b)
    (hva : a ≤ 0x3ff) (hvb : b ≤ 0x3ff) :
    (Address.TunnelInternalIPs ⟨ing, ipA⟩ b).map Prod.fst
      = (Address.TunnelInternalIPs ⟨ing, ipB⟩ a).map Prod.snd
    ∧ (Address.TunnelInternalIPs ⟨ing, ipA⟩ b).map Prod.snd
      = (Address.TunnelInternalIPs ⟨ing, ipB⟩ a).map Prod.fst
    ∧ (Address.VPNEndpointPorts ⟨ing, ipA⟩ b).map Prod.fst
      = (Address.VPNEndpointPorts ⟨ing, ipB⟩ a).map Prod.snd
    ∧ (Address.VPNEndpointPorts ⟨ing, ipA⟩ b).map Prod.snd
      = (Address.VPNEndpointPorts ⟨ing, ipB⟩ a).map Prod.fst := by
  unfold Address.TunnelInternalIPs Address.VPNEndpointPorts
  rw [ha, hb]
  simp

/-- Witness for C1 at `commonPrefixLen=8, dcPrefixLen=16, vpnStartPort=1194`,
with the addresses 10.5.0.1 (id 0x014) and 10.7.0.1 (id 0x01C). -/
theorem tunnelAlgebra_peer_symmetry_witness :
    (Address.TunnelInternalIPs ⟨⟨8, 16, 16, 1194⟩, some 0x0A050001⟩ 28).map Prod.fst
      = (Address.TunnelInternalIPs ⟨⟨8, 16, 16, 1194⟩, some 0x0A070001⟩ 20).map Prod.snd
    ∧ (Address.TunnelInternalIPs ⟨⟨8, 16, 16, 1194⟩, some 0x0A050001⟩ 28).map Prod.snd
      = (Address.TunnelInternalIPs ⟨⟨8, 16, 16, 1194⟩, some 0x0A070001⟩ 20).map Prod.fst
    ∧ (Address.VPNEndpointPorts ⟨⟨8, 16, 16, 1194⟩, some 0x0A050001⟩ 28).map Prod.fst
      = (Address.VPNEndpointPorts ⟨⟨8, 16, 16, 1194⟩, some 0x0A070001⟩ 20).map Prod.snd
    ∧ (Address.VPNEndpointPorts ⟨⟨8, 16, 16, 1194⟩, some 0x0A050001⟩ 28).map Prod.snd
      = (Address.VPNEndpointPorts ⟨⟨8, 16, 16, 1194⟩, some 0x0A070001⟩ 20).map Prod.fst :=
  tunnelAlgebra_peer_symmetry ⟨8, 16, 16, 1194⟩ (some 0x0A050001) (some 0x0A070001) 20 28
    (by decide) (by decide) (by decide) (by decide)

/-- C2 counterexample: with `commonPrefixLen=8, dcPrefixLen=16`, the
EndpointId of 10.5.0.1 is not `0x005`. The extracted 8 bits (the second
byte, 5) are right-padded with two zero bits, giving `0x014 = 20`, so the
claimed literal `localId=0x005` is wrong on the code. -/
theorem scenario_literals_counterexample :
    Address.EndpointId ⟨⟨8, 16, 16, 1194⟩, some 0x0A050001⟩ ≠ some 0x005 := by decide

/-- C2 amended: with `commonPrefixLen=8, dcPrefixLen=16, vpnStartPort=1194`,
the private IPs 10.5.0.1 (local) and 10.7.0.1 (remote) yield
`localId=0x014`, `remoteId=0x01C`, VPN endpoint ports `(1214, 1222)`, and
in-tunnel IPs 172.16.80.28 (local side) and 172.16.112.20 (remote side). -/
theorem scenario_literals_actual :
    Address.EndpointId ⟨⟨8, 16, 16, 1194⟩, some 0x0A050001⟩ = some 0x014
    ∧ Address.EndpointId ⟨⟨8, 16, 16, 1194⟩, some 0x0A070001⟩ = some 0x01c
    ∧ Address.VPNEndpointPorts ⟨⟨8, 16, 16, 1194⟩, some 0x0A050001⟩ 0x01c = some (1214, 1222)
    ∧ Address.TunnelInternalIPs ⟨⟨8, 16, 16, 1194⟩, some 0x0A050001⟩ 0x01c
        = some (⟨172, 16, 80, 28⟩, ⟨172, 16, 112, 20⟩) := by decide

/-- C3 counterexample: with `commonPrefixLen=7, dcPrefixLen=17` (so
`0 < d-c = 10 ≤ 10` and `c < 24`, with `c mod 8 = 7`), the address
10.1.128.0 does not map to the 10 bits starting at bit 7 (which are
`0b0000000011 = 3`): the Go shift-count underflow drops every bit taken from
the second and third bytes and the code returns 0. -/
theorem endpointId_bit_extraction_counterexample :
    Address.EndpointId ⟨⟨7, 16, 17, 1194⟩, some 0x0A018000⟩
      ≠ some (specEndpointId 7 17 0x0A018000) := by decide

/-- C4: at `commonPrefixLen=23, dcPrefixLen=33` the stated validity
constraints (`0 < d-c ≤ 10`, `c < 24`) hold, yet `EndpointId` does not
return: `net.CIDRMask(33, 32)` is nil, `ip.Mask(nil)` is nil, and indexing
the nil byte slice panics (modelled as `none`), contradicting the claim
(and the code's own comment) that assumption violations never crash. -/
theorem endpointId_panics_on_wide_dc_prefix :
    0 < 33 - 23 ∧ 33 - 23 ≤ 10 ∧ 23 < 24
    ∧ Address.EndpointId ⟨⟨23, 16, 33, 1194⟩, some 0x0A000001⟩ = none := by decide

/-! ### Characterization of EndpointId -/

lemma byteAt_eq (v idx : Nat) : byteAt v idx = (v >>> (8 * (3 - idx))) % 2 ^ 8 := by
  unfold byteAt; norm_num

lemma code_window_eq (w c : Nat) (h24 : c < 24) (hs : c % 8 ≤ 6) :
    endpointIdBits c w = (w >>> (22 - c)) % 2 ^ 10 := by
  have h3ff : (0x3ff : Nat) = 2 ^ 10 - 1 := by norm_num
  have h65536 : (65536 : Nat) = 2 ^ 16 := by norm_num
  obtain ⟨i, s, hc, hs8, hs6⟩ : ∃ i s, c = 8 * i + s ∧ s < 8 ∧ s ≤ 6 :=
    ⟨c / 8, c % 8, by omega, by omega, hs⟩
  have hdiv : c / 8 = i := by omega
  have hmod : c % 8 = s := by omega
  unfold endpointIdBits
  rw [if_pos (by omega : 10 - (8 - c % 8) ≤ 8),
    show 8 - (10 - (8 - c % 8)) = 6 - c % 8 from by omega,
    h3ff, h65536, byteAt_eq, byteAt_eq, hdiv, hmod]
  apply Nat.eq_of_testBit_eq
  intro k
  simp only [Nat.testBit_and, Nat.testBit_or, Nat.testBit_shiftLeft, Nat.testBit_shiftRight,
    Nat.testBit_mod_two_pow, Nat.testBit_two_pow_sub_one]
  rcases Nat.lt_or_ge k 10 with hk | hk
  · rcases Nat.lt_or_ge k (s + 2) with hks | hks
    · have e1 : ¬ (s + 2 ≤ k) := by omega
      have e2 : 6 - s + k < 8 := by omega
      simp only [ge_iff_le, e1, decide_eq_true_eq, decide_False, Bool.false_and, e2,
        decide_True, Bool.true_and, Bool.false_or, Bool.and_false, Bool.and_true, hk]
      rw [show 8 * (3 - (i + 1)) + (6 - s + k) = 22 - c + k from by omega]
    · have e2 : ¬ (6 - s + k < 8) := by omega
      have e4 : k - (s + 2) < 8 := by omega
      have e5 : k < 16 := by omega
      simp only [ge_iff_le, hks, decide_eq_true_eq, decide_True, Bool.true_and, e2,
        decide_False, Bool.false_and, Bool.or_false, Bool.and_true, e4, e5, hk]
      rw [show 8 * (3 - i) + (k - (s + 2)) = 22 - c + k from by omega]
  · have e1 : ¬ (k < 10) := by omega
    simp [e1]

lemma window_spec_eq (ip c d : Nat) (hcd : c < d) (ha : d - c ≤ 10) (hd : d ≤ 32)
    (h22 : c ≤ 22) :
    ((ip &&& ((2 ^ d - 1) <<< (32 - d))) >>> (22 - c)) % 2 ^ 10 = specEndpointId c d ip := by
  unfold specEndpointId
  apply Nat.eq_of_testBit_eq
  intro k
  simp only [Nat.testBit_and, Nat.testBit_or, Nat.testBit_shiftLeft, Nat.testBit_shiftRight,
    Nat.testBit_mod_two_pow, Nat.testBit_two_pow_sub_one]
  rcases Nat.lt_or_ge k 10 with hk | hk
  · rcases Nat.lt_or_ge k (10 - (d - c)) with hka | hka
    · have g1 : ¬ (32 - d ≤ 22 - c + k) := by omega
      have g2 : ¬ (10 - (d - c) ≤ k) := by omega
      simp [g1, g2, hk]
    · have f1 : 32 - d ≤ 22 - c + k := by omega
      have f2 : 22 - c + k - (32 - d) < d := by omega
      have f3 : k - (10 - (d - c)) < d - c := by omega
      simp only [ge_iff_le, f1, f2, f3, hka, decide_True, Bool.true_and, Bool.and_true, hk]
      rw [show 32 - d + (k - (10 - (d - c))) = 22 - c + k from by omega]
  · have e1 : ¬ (k < 10) := by omega
    have e2 : ¬ (k - (10 - (d - c)) < d - c) := by omega
    simp [e1, e2]

lemma code_window_eq_high (w c : Nat) (h24 : c < 24) (hs : c % 8 = 7) :
    endpointIdBits c w = ((w >>> (31 - c)) % 2 ^ 1) <<< 9 := by
  have h3ff : (0x3ff : Nat) = 2 ^ 10 - 1 := by norm_num
  have h65536 : (65536 : Nat) = 2 ^ 16 := by norm_num
  obtain ⟨i, hc, hi⟩ : ∃ i, c = 8 * i + 7 ∧ i ≤ 2 := ⟨c / 8, by omega, by omega⟩
  have hdiv : c / 8 = i := by omega
  unfold endpointIdBits
  rw [if_neg (by omega : ¬ (10 - (8 - c % 8) ≤ 8)), h3ff, h65536, byteAt_eq, hdiv, hs]
  apply Nat.eq_of_testBit_eq
  intro k
  simp only [Nat.testBit_and, Nat.testBit_or, Nat.testBit_shiftLeft, Nat.testBit_shiftRight,
    Nat.testBit_mod_two_pow, Nat.testBit_two_pow_sub_one, Bool.or_false]
  rcases Nat.lt_or_ge k 9 with hk | hk
  · have e1 : ¬ (7 + 2 ≤ k) := by omega
    have e2 : ¬ (9 ≤ k) := by omega
    simp [e1, e2]
  · rcases Nat.lt_or_ge k 10 with hk2 | hk2
    · have e0 : k = 9 := by omega
      subst e0
      have e1 : (7 : Nat) + 2 ≤ 9 := by omega
      have e3 : (9 : Nat) - (7 + 2) < 8 := by omega
      have e4 : (9 : Nat) - 9 < 1 := by omega
      have e5 : (9 : Nat) < 10 := by omega
      have e6 : (9 : Nat) ≤ 9 := by omega
      simp only [ge_iff_le, e1, e3, e4, e5, e6, decide_True, Bool.true_and, Bool.and_true]
      rw [show 8 * (3 - i) + (9 - (7 + 2)) = 31 - c + (9 - 9) from by omega]
      simp
    · have e1 : ¬ (k < 10) := by omega
      have e2 : ¬ (k - 9 < 1) := by omega
      simp [e1, e2]

lemma window_spec_eq_high (ip c d : Nat) (hcd : c < d) (hd : d ≤ 32) (h23 : c ≤ 23) :
    ((ip &&& ((2 ^ d - 1) <<< (32 - d))) >>> (31 - c)) % 2 ^ 1
      = ((ip >>> (32 - d)) % 2 ^ (d - c)) >>> (d - c - 1) := by
  apply Nat.eq_of_testBit_eq
  intro k
  simp only [Nat.testBit_and, Nat.testBit_shiftLeft, Nat.testBit_shiftRight,
    Nat.testBit_mod_two_pow, Nat.testBit_two_pow_sub_one]
  rcases Nat.lt_or_ge k 1 with hk | hk
  · have e0 : k = 0 := by omega
    subst e0
    have f1 : 32 - d ≤ 31 - c + 0 := by omega
    have f2 : 31 - c + 0 - (32 - d) < d := by omega
    have f3 : d - c - 1 + 0 < d - c := by omega
    have f4 : (0 : Nat) < 1 := by omega
    simp only [f1, f2, f3, f4, decide_True, Bool.true_and, Bool.and_true]
    rw [show 32 - d + (d - c - 1 + 0) = 31 - c + 0 from by omega]
  · have e1 : ¬ (k < 1) := by omega
    have e2 : ¬ (d - c - 1 + k < d - c) := by omega
    simp [e1, e2]

lemma cidrMask_le (d : Nat) (hd : d ≤ 32) :
    cidrMask d = some ((2 ^ d - 1) <<< (32 - d)) := by
  unfold cidrMask
  rw [if_pos hd]

lemma endpointId_reduce (c r d sp ip : Nat) (hvalid : ¬ (24 ≤ c ∨ d ≤ c ∨ 10 < d - c))
    (hd : d ≤ 32) :
    Address.EndpointId ⟨⟨c, r, d, sp⟩, some ip⟩
      = some (endpointIdBits c (ip &&& ((2 ^ d - 1) <<< (32 - d)))) := by
  show (if 24 ≤ c ∨ d ≤ c ∨ 10 < d - c then some InvalidEndpointId
    else Option.map (endpointIdBits c) (ipMask ip (cidrMask d))) = _
  rw [if_neg hvalid, cidrMask_le d hd]
  rfl

lemma endpointId_eq_spec (ing : Addressing) (ip : Nat)
    (h24 : ing.CommonPrefixLen < 24)
    (hcd : ing.CommonPrefixLen < ing.DCPrefixLen)
    (ha : ing.DCPrefixLen - ing.CommonPrefixLen ≤ 10)
    (hs : ing.CommonPrefixLen % 8 ≤ 6) :
    Address.EndpointId ⟨ing, some ip⟩
      = some (specEndpointId ing.CommonPrefixLen ing.DCPrefixLen ip) := by
  obtain ⟨c, r, d, sp⟩ := ing
  simp only at h24 hcd ha hs
  have hd32 : d ≤ 32 := by omega
  rw [endpointId_reduce c r d sp ip (by omega) hd32,
    code_window_eq _ c h24 hs, window_spec_eq ip c d hcd ha hd32 (by omega)]

lemma endpointId_eq_topbit (ing : Addressing) (ip : Nat)
    (h24 : ing.CommonPrefixLen < 24)
    (hcd : ing.CommonPrefixLen < ing.DCPrefixLen)
    (ha : ing.DCPrefixLen - ing.CommonPrefixLen ≤ 10)
    (hs : ing.CommonPrefixLen % 8 = 7)
    (hd : ing.DCPrefixLen ≤ 32) :
    Address.EndpointId ⟨ing, some ip⟩
      = some ((((ip >>> (32 - ing.DCPrefixLen))
            % 2 ^ (ing.DCPrefixLen - ing.CommonPrefixLen))
          >>> (ing.DCPrefixLen - ing.CommonPrefixLen - 1)) <<< 9) := by
  obtain ⟨c, r, d, sp⟩ := ing
  simp only at h24 hcd ha hs hd
  rw [endpointId_reduce c r d sp ip (by omega) hd,
    code_window_eq_high _ c h24 hs, window_spec_eq_high ip c d hcd hd (by omega)]

lemma endpointId_panic (ing : Addressing) (ip : Nat)
    (hvalid : ¬ (24 ≤ ing.CommonPrefixLen ∨ ing.DCPrefixLen ≤ ing.CommonPrefixLen ∨
        10 < ing.DCPrefixLen - ing.CommonPrefixLen))
    (hd : 32 < ing.DCPrefixLen) :
    Address.EndpointId ⟨ing, some ip⟩ = none := by
  obtain ⟨c, r, d, sp⟩ := ing
  simp only at hvalid hd
  show (if 24 ≤ c ∨ d ≤ c ∨ 10 < d - c then some InvalidEndpointId
    else Option.map (endpointIdBits c) (ipMask ip (cidrMask d))) = _
  rw [if_neg hvalid]
  unfold cidrMask
  rw [if_neg (by omega)]
  rfl

/-- C3 amended: for every Addressing with `0 < d - c ≤ 10`, `c < 24` and
`c mod 8 ≤ 6` (the extracted window then lies within two bytes), EndpointId
returns exactly the `d - c` bits of the address starting at bit position `c`
(after masking to `/d`), right-padded with zeros to a 10-bit value. When
`c mod 8 = 7` the Go shift-count underflow zeroes the contribution of the
second and third bytes, so only bit `c` survives (see the counterexample). -/
theorem endpointId_extracts_bits_low_offset (ing : Addressing) (ip : Nat)
    (hlt : 0 < ing.DCPrefixLen - ing.CommonPrefixLen)
    (ha : ing.DCPrefixLen - ing.CommonPrefixLen ≤ 10)
    (h24 : ing.CommonPrefixLen < 24)
    (hs : ing.CommonPrefixLen % 8 ≤ 6) :
    Address.EndpointId ⟨ing, some ip⟩
      = some (specEndpointId ing.CommonPrefixLen ing.DCPrefixLen ip) :=
  endpointId_eq_spec ing ip h24 (by omega) ha hs

/-- Witness for the amended C3 at `c=8, d=16`, ip 10.5.0.1. -/
theorem endpointId_extracts_bits_low_offset_witness :
    0 < 16 - 8 ∧ 16 - 8 ≤ 10 ∧ 8 < 24 ∧ 8 % 8 ≤ 6
    ∧ Address.EndpointId ⟨⟨8, 16, 16, 1194⟩, some 0x0A050001⟩
        = some (specEndpointId 8 16 0x0A050001) :=
  ⟨by decide, by decide, by decide, by decide,
    endpointId_extracts_bits_low_offset ⟨8, 16, 16, 1194⟩ 0x0A050001
      (by decide) (by decide) (by decide) (by decide)⟩

/-- C10: EndpointId depends only on the address bits between
`commonPrefixLen` and `dcPrefixLen`: for every Addressing with
`0 < d - c ≤ 10` and `c < 24`, two addresses that agree on bit positions
`c` through `d - 1` (the value `(ip >>> (32 - d)) % 2 ^ (d - c)`) are mapped
to the same EndpointId result, whatever their common-prefix or host bits. -/
theorem endpointId_depends_only_on_dc_bits (ing : Addressing) (ip1 ip2 : Nat)
    (hlt : 0 < ing.DCPrefixLen - ing.CommonPrefixLen)
    (ha : ing.DCPrefixLen - ing.CommonPrefixLen ≤ 10)
    (h24 : ing.CommonPrefixLen < 24)
    (hagree : (ip1 >>> (32 - ing.DCPrefixLen)) % 2 ^ (ing.DCPrefixLen - ing.CommonPrefixLen)
            = (ip2 >>> (32 - ing.DCPrefixLen)) % 2 ^ (ing.DCPrefixLen - ing.CommonPrefixLen)) :
    Address.EndpointId ⟨ing, some ip1⟩ = Address.EndpointId ⟨ing, some ip2⟩ := by
  rcases Nat.lt_or_ge 32 ing.DCPrefixLen with hd | hd
  · rw [endpointId_panic ing ip1 (by omega) hd, endpointId_panic ing ip2 (by omega) hd]
  · rcases Nat.lt_or_ge 6 (ing.CommonPrefixLen % 8) with hs | hs
    · have hs7 : ing.CommonPrefixLen % 8 = 7 := by omega
      rw [endpointId_eq_topbit ing ip1 h24 (by omega) ha hs7 hd,
        endpointId_eq_topbit ing ip2 h24 (by omega) ha hs7 hd, hagree]
    · rw [endpointId_eq_spec ing ip1 h24 (by omega) ha hs,
        endpointId_eq_spec ing ip2 h24 (by omega) ha hs]
      unfold specEndpointId
      rw [hagree]

/-- Witness for C10: 10.5.0.1 and 255.5.255.255 agree on bits 8..15 and get
the same EndpointId under `c=8, d=16`. -/
theorem endpointId_depends_only_on_dc_bits_witness :
    0 < 16 - 8 ∧ 16 - 8 ≤ 10 ∧ 8 < 24
    ∧ (0x0A050001 >>> (32 - 16)) % 2 ^ (16 - 8) = (0xFF05FFFF >>> (32 - 16)) % 2 ^ (16 - 8)
    ∧ Address.EndpointId ⟨⟨8, 16, 16, 1194⟩, some 0x0A050001⟩
        = Address.EndpointId ⟨⟨8, 16, 16, 1194⟩, some 0xFF05FFFF⟩ :=
  ⟨by decide, by decide, by decide, by decide,
    endpointId_depends_only_on_dc_bits ⟨8, 16, 16, 1194⟩ 0x0A050001 0xFF05FFFF
      (by decide) (by decide) (by decide) (by decide)⟩

/-! ### EndpointSet algebra and the reconciler diff (src/endpoint.go, src/manager.go) -/

/-- VPN process states (src/openvpn.go). -/
inductive VPNState where
  | launching
  | connecting
  | retrying
  | connected
  | exiting
  | exited
deriving DecidableEq, Repr

/-- A tunnel entry of a `TunnelsState` snapshot (src/tunnels.go). -/
structure Tunnel where
  endpointId : Nat
  state : VPNState
deriving DecidableEq, Repr

/-- `EndpointSet` (src/endpoint.go): a set of endpoint ids. Go uses a
`map[EndpointId]struct\x7b\x7d`; only set contents matter. -/
abbrev EndpointSet : Type := Finset Nat

/-- `EndpointSet.Add` silently ignores `InvalidEndpointId`. -/
def EndpointSet.Add (s : EndpointSet) (id : Nat) : EndpointSet :=
  if id = InvalidEndpointId then s else insert id s

/-- `EndpointSet.Has`. -/
def EndpointSet.Has (s : EndpointSet) (id : Nat) : Prop := id ∈ s

instance (s : EndpointSet) (id : Nat) : Decidable (EndpointSet.Has s id) :=
  inferInstanceAs (Decidable (id ∈ s))

/-- `EndpointSet.Union` copies the keys of both operands into a fresh set. -/
def EndpointSet.Union (s other : EndpointSet) : EndpointSet := s ∪ other

/-- `EndpointSet.Subtract` iterates `s` and re-`Add`s every key not in
`other`; since `Add` drops `InvalidEndpointId`, so does `Subtract`. -/
def EndpointSet.Subtract (s other : EndpointSet) : EndpointSet :=
  s.filter (fun k => k ∉ other ∧ k ≠ InvalidEndpointId)

/-- Serf membership status of an endpoint (src/endpoint.go uses
`serf.MemberStatus`). -/
inductive MemberStatus where
  | statusNone
  | alive
  | leaving
  | left
  | failed
deriving DecidableEq, Repr

/-- The reconciler's view of one remote endpoint: its id (already computed
from its internal address) and its gossip status. -/
structure RemoteEndpoint where
  id : Nat
  status : MemberStatus
deriving DecidableEq, Repr

/-- `Endpoint.Alive` (src/endpoint.go line 54). -/
def RemoteEndpoint.Alive (e : RemoteEndpoint) : Bool := e.status = MemberStatus.alive

/-- `Endpoint.ExpectedAlive` (src/endpoint.go line 58). -/
def RemoteEndpoint.ExpectedAlive (e : RemoteEndpoint) : Bool :=
  ¬ (e.status = MemberStatus.left ∨ e.status = MemberStatus.leaving)

/-- The `liveRemoteEndpoints` set built by one iteration of `Manager.Run`
(src/manager.go lines 140-152). -/
def liveRemoteEndpoints (es : List RemoteEndpoint) : EndpointSet :=
  es.foldl (fun s e => if e.Alive then EndpointSet.Add s e.id else s) ∅

/-- The `gotTunnels` set built by one iteration of `Manager.Run`
(src/manager.go lines 164-173). -/
def gotTunnels (ts : List Tunnel) : EndpointSet :=
  ts.foldl (fun s t => EndpointSet.Add s t.endpointId) ∅

/-- The `exitingTunnels` set built by one iteration of `Manager.Run`
(src/manager.go lines 164-173). -/
def exitingTunnels (ts : List Tunnel) : EndpointSet :=
  ts.foldl (fun s t => if t.state = VPNState.exiting then EndpointSet.Add s t.endpointId else s) ∅

/-- `addTunnels` (src/manager.go line 175). -/
def addTunnels (live got : EndpointSet) : EndpointSet :=
  EndpointSet.Subtract (EndpointSet.Union live got) got

/-- `delTunnels` (src/manager.go line 176). -/
def delTunnels (live got exiting : EndpointSet) : EndpointSet :=
  EndpointSet.Subtract (EndpointSet.Subtract (EndpointSet.Union live got) live) exiting

/-- The pair (ids passed to `StartTunnel`, ids passed to `CloseTunnel`) that
one iteration of `Manager.Run`'s loop issues from the current snapshots
(src/manager.go lines 140-199). -/
def reconcileCalls (es : List RemoteEndpoint) (ts : List Tunnel) : EndpointSet × EndpointSet :=
  (addTunnels (liveRemoteEndpoints es) (gotTunnels ts),
   delTunnels (liveRemoteEndpoints es) (gotTunnels ts) (exitingTunnels ts))

lemma invalid_not_mem_Add (s : EndpointSet) (id : Nat) (h : InvalidEndpointId ∉ s) :
    InvalidEndpointId ∉ EndpointSet.Add s id := by
  unfold EndpointSet.Add
  split
  · exact h
  · next hne =>
    rw [Finset.mem_insert]
    rintro (he | he)
    · exact hne he.symm
    · exact h he

lemma invalid_not_mem_live (es : List RemoteEndpoint) :
    InvalidEndpointId ∉ liveRemoteEndpoints es := by
  unfold liveRemoteEndpoints
  have h : ∀ acc : EndpointSet, InvalidEndpointId ∉ acc →
      InvalidEndpointId ∉ es.foldl (fun s e => if e.Alive then EndpointSet.Add s e.id else s) acc := by
    induction es with
    | nil => intro acc hacc; exact hacc
    | cons x xs ih =>
      intro acc hacc
      simp only [List.foldl_cons]
      apply ih
      split
      · exact invalid_not_mem_Add acc x.id hacc
      · exact hacc
  exact h ∅ (by simp)

lemma invalid_not_mem_got (ts : List Tunnel) : InvalidEndpointId ∉ gotTunnels ts := by
  unfold gotTunnels
  have h : ∀ acc : EndpointSet, InvalidEndpointId ∉ acc →
      InvalidEndpointId ∉ ts.foldl (fun s t => EndpointSet.Add s t.endpointId) acc := by
    induction ts with
    | nil => intro acc hacc; exact hacc
    | cons x xs ih =>
      intro acc hacc
      simp only [List.foldl_cons]
      exact ih _ (invalid_not_mem_Add acc x.endpointId hacc)
  exact h ∅ (by simp)

/-- C5: the reconciler's diff sets are the claimed set differences: for all
snapshots, `addTunnels = live \ got` and `delTunnels = got \ live \ exiting`;
in general `(D ∪ C) \ C = D \ C` for the EndpointSet operations; and
`delTunnels` never contains an id whose tunnel is in state Exiting. -/
theorem reconcile_diff_sets (es : List RemoteEndpoint) (ts : List Tunnel) :
    addTunnels (liveRemoteEndpoints es) (gotTunnels ts)
        = liveRemoteEndpoints es \ gotTunnels ts
    ∧ delTunnels (liveRemoteEndpoints es) (gotTunnels ts) (exitingTunnels ts)
        = (gotTunnels ts \ liveRemoteEndpoints es) \ exitingTunnels ts
    ∧ (∀ D C : EndpointSet,
        EndpointSet.Subtract (EndpointSet.Union D C) C = EndpointSet.Subtract D C)
    ∧ delTunnels (liveRemoteEndpoints es) (gotTunnels ts) (exitingTunnels ts)
        ∩ exitingTunnels ts = ∅ := by
  have hlive := invalid_not_mem_live es
  have hgot := invalid_not_mem_got ts
  refine ⟨?_, ?_, ?_, ?_⟩
  · ext x
    have hx : x ∈ liveRemoteEndpoints es → x ≠ InvalidEndpointId :=
      fun h he => hlive (he ▸ h)
    simp only [addTunnels, EndpointSet.Subtract, EndpointSet.Union, Finset.mem_filter,
      Finset.mem_union, Finset.mem_sdiff]
    tauto
  · ext x
    have hx : x ∈ gotTunnels ts → x ≠ InvalidEndpointId :=
      fun h he => hgot (he ▸ h)
    simp only [delTunnels, EndpointSet.Subtract, EndpointSet.Union, Finset.mem_filter,
      Finset.mem_union, Finset.mem_sdiff]
    tauto
  · intro D C
    ext x
    simp only [EndpointSet.Subtract, EndpointSet.Union, Finset.mem_filter, Finset.mem_union]
    tauto
  · rw [Finset.eq_empty_iff_forall_not_mem]
    intro x
    simp only [delTunnels, EndpointSet.Subtract, Finset.mem_inter, Finset.mem_filter]
    tauto

/-- C6 counterexample: a snapshot pair that is unchanged between two
iterations but where the (pure) diff still issues a StartTunnel call on the
repeated iteration: one alive remote endpoint with id 5 and an empty tunnel
state. `reconcileCalls` is a function of the snapshots alone, so the second
iteration issues exactly the same call set, which here contains id 5. -/
theorem reconcile_idempotence_counterexample :
    5 ∈ (reconcileCalls [⟨5, MemberStatus.alive⟩] ([] : List Tunnel)).1 := by decide

/-- C6 amended: the reconciler's diff is a pure function of the snapshot
pair, so a repeated iteration issues exactly the calls of the first; it
issues none precisely when the diff sets are empty, in particular whenever
the tunnel-state ids already equal the live remote set. -/
theorem reconcile_noop_when_consistent (es : List RemoteEndpoint) (ts : List Tunnel)
    (h : gotTunnels ts = liveRemoteEndpoints es) :
    reconcileCalls es ts = (∅, ∅) := by
  unfold reconcileCalls addTunnels delTunnels
  rw [h]
  have h0 : EndpointSet.Subtract
      (EndpointSet.Union (liveRemoteEndpoints es) (liveRemoteEndpoints es))
      (liveRemoteEndpoints es) = ∅ := by
    rw [Finset.eq_empty_iff_forall_not_mem]
    intro x
    simp only [EndpointSet.Subtract, EndpointSet.Union, Finset.mem_filter, Finset.mem_union]
    tauto
  rw [h0]
  have h1 : EndpointSet.Subtract ∅ (exitingTunnels ts) = ∅ := by
    rw [Finset.eq_empty_iff_forall_not_mem]
    intro x
    simp [EndpointSet.Subtract]
  rw [h1]

/-- Witness for the amended C6: one alive remote with id 5 and one connected
tunnel for id 5; the iteration issues no calls. -/
theorem reconcile_noop_when_consistent_witness :
    gotTunnels [⟨5, VPNState.connected⟩] = liveRemoteEndpoints [⟨5, MemberStatus.alive⟩]
    ∧ reconcileCalls [⟨5, MemberStatus.alive⟩] [⟨5, VPNState.connected⟩] = (∅, ∅) :=
  ⟨by decide,
    reconcile_noop_when_consistent [⟨5, MemberStatus.alive⟩] [⟨5, VPNState.connected⟩]
      (by decide)⟩

/-! ### Tunnel supervisor (src/tunnels.go) -/

/-- A `TunnelsState` snapshot: the list of tunnels built by
`newTunnelsState` from the `tunnelStates` map (src/tunnels.go lines 19-32). -/
structure TunnelsState where
  Tunnels : List Tunnel
deriving DecidableEq, Repr

/-- Go map assignment `m[k] = v` on an association list: replace the entry
with key `k` if present, otherwise append a new entry. -/
def mapSet (m : List (Nat × VPNState)) (k : Nat) (v : VPNState) : List (Nat × VPNState) :=
  match m with
  | [] => [(k, v)]
  | p :: rest => if p.1 = k then (k, v) :: rest else p :: mapSet rest k v

/-- Go map deletion `delete(m, k)` on an association list. -/
def mapDel (m : List (Nat × VPNState)) (k : Nat) : List (Nat × VPNState) :=
  m.filter (fun p => p.1 ≠ k)

/-- `newTunnelsState` (src/tunnels.go lines 19-32): one `Tunnel` per entry
of the `tunnelStates` map. -/
def newTunnelsState (m : List (Nat × VPNState)) : TunnelsState :=
  ⟨m.map (fun p => ⟨p.1, p.2⟩)⟩

/-- The supervisor's shared state: the key set of `tunnelVPNs` (the process
handles themselves are irrelevant to the claims) and the `tunnelStates` map,
both mutated only under the write lock (src/tunnels.go lines 34-46). -/
structure MgrState where
  tunnelVPNs : Finset Nat
  tunnelStates : List (Nat × VPNState)
deriving DecidableEq

/-- Outcome of `StartOpenVPN` as seen by `StartTunnel`. -/
inductive StartResult where
  | ok
  | fail
deriving DecidableEq, Repr

/-- Models `TunnelMgr.StartTunnel` (src/tunnels.go lines 63-130) as the
state transformation performed under the write lock, parameterized by the
outcome `r` of `StartOpenVPN`. Returns the new state and whether an error
was returned to the caller (`true` = error). The function is total: every
branch returns normally, no panic. -/
def startTunnel (s : MgrState) (id : Nat) (r : StartResult) : MgrState × Bool :=
  if id ∈ s.tunnelVPNs then (s, true)
  else
    match r with
    | StartResult.fail => (s, true)
    | StartResult.ok =>
      (⟨insert id s.tunnelVPNs, mapSet s.tunnelStates id VPNState.launching⟩, false)

/-- One serialized write-lock window of the supervisor, together with the
`TunnelsState` snapshot it emits on the change channel (if any).

`monitorState` and `monitorExited` are the two branches of the per-tunnel
monitor goroutine spawned by `StartTunnel` (src/tunnels.go lines 111-127);
their guard `id ∈ s.tunnelVPNs` reflects that a monitor event for `id` can
only be processed while `id`'s entries are present: the entries are inserted
before the monitor is spawned, they are removed only by that same monitor's
own Exited branch (after which it processes no further events), and
`StartTunnel` refuses ids that are already present, so no second monitor for
the same id can coexist with a live one. `closeTunnel` only reads the maps
and signals the process. -/
inductive MgrStep : MgrState → MgrState → Option TunnelsState → Prop where
  | startTunnelOk (s : MgrState) (id : Nat) (h : id ∉ s.tunnelVPNs) :
      MgrStep s ⟨insert id s.tunnelVPNs, mapSet s.tunnelStates id VPNState.launching⟩ none
  | startTunnelAlready (s : MgrState) (id : Nat) (h : id ∈ s.tunnelVPNs) :
      MgrStep s s none
  | startTunnelFail (s : MgrState) (id : Nat) :
      MgrStep s s none
  | monitorState (s : MgrState) (id : Nat) (st : VPNState)
      (hid : id ∈ s.tunnelVPNs) (hst : st ≠ VPNState.exited) :
      MgrStep s ⟨s.tunnelVPNs, mapSet s.tunnelStates id st⟩
        (some (newTunnelsState (mapSet s.tunnelStates id st)))
  | monitorExited (s : MgrState) (id : Nat) (hid : id ∈ s.tunnelVPNs) :
      MgrStep s ⟨s.tunnelVPNs.erase id, mapDel s.tunnelStates id⟩
        (some (newTunnelsState (mapDel s.tunnelStates id)))
  | closeTunnel (s : MgrState) (id : Nat) :
      MgrStep s s none

/-- Supervisor states reachable from `NewTunnelMgr`'s empty maps
(src/tunnels.go lines 53-61) by serialized lock windows. -/
inductive MgrReachable : MgrState → Prop where
  | init : MgrReachable ⟨∅, []⟩
  | step (s s' : MgrState) (out : Option TunnelsState) :
      MgrReachable s → MgrStep s s' out → MgrReachable s'

/-- The supervisor invariant: the `tunnelStates` keys are distinct, the two
maps have the same key set, and no stored state is Exited. -/
def MgrInv (s : MgrState) : Prop :=
  (s.tunnelStates.map Prod.fst).Nodup
  ∧ (∀ k : Nat, k ∈ s.tunnelVPNs ↔ k ∈ s.tunnelStates.map Prod.fst)
  ∧ (∀ p ∈ s.tunnelStates, p.2 ≠ VPNState.exited)

lemma mapSet_cons_eq (p : Nat × VPNState) (rest : List (Nat × VPNState)) (k : Nat)
    (v : VPNState) (h : p.1 = k) : mapSet (p :: rest) k v = (k, v) :: rest := by
  simp [mapSet, h]

lemma mapSet_cons_ne (p : Nat × VPNState) (rest : List (Nat × VPNState)) (k : Nat)
    (v : VPNState) (h : p.1 ≠ k) : mapSet (p :: rest) k v = p :: mapSet rest k v := by
  simp [mapSet, h]

lemma mapSet_keys_mem (m : List (Nat × VPNState)) (k : Nat) (v : VPNState) (a : Nat) :
    a ∈ (mapSet m k v).map Prod.fst ↔ a ∈ m.map Prod.fst ∨ a = k := by
  induction m with
  | nil => simp [mapSet]
  | cons p rest ih =>
    by_cases hp : p.1 = k
    · rw [mapSet_cons_eq p rest k v hp]
      simp only [List.map_cons, List.mem_cons, hp]
      tauto
    · rw [mapSet_cons_ne p rest k v hp]
      simp only [List.map_cons, List.mem_cons, ih]
      tauto

lemma mapSet_keys_nodup (m : List (Nat × VPNState)) (k : Nat) (v : VPNState)
    (h : (m.map Prod.fst).Nodup) : ((mapSet m k v).map Prod.fst).Nodup := by
  induction m with
  | nil => simp [mapSet]
  | cons p rest ih =>
    simp only [List.map_cons, List.nodup_cons] at h
    by_cases hp : p.1 = k
    · rw [mapSet_cons_eq p rest k v hp]
      simp only [List.map_cons, List.nodup_cons]
      exact ⟨hp ▸ h.1, h.2⟩
    · rw [mapSet_cons_ne p rest k v hp]
      simp only [List.map_cons, List.nodup_cons]
      refine ⟨?_, ih h.2⟩
      rw [mapSet_keys_mem]
      rintro (hm | hm)
      · exact h.1 hm
      · exact hp hm

lemma mapSet_mem_val (m : List (Nat × VPNState)) (k : Nat) (v : VPNState)
    (p : Nat × VPNState) (hp : p ∈ mapSet m k v) : p = (k, v) ∨ p ∈ m := by
  induction m with
  | nil =>
    simp only [mapSet, List.mem_singleton] at hp
    exact Or.inl hp
  | cons q rest ih =>
    by_cases hq : q.1 = k
    · rw [mapSet_cons_eq q rest k v hq] at hp
      rw [List.mem_cons] at hp
      rcases hp with h | h
      · exact Or.inl h
      · exact Or.inr (List.mem_cons_of_mem q h)
    · rw [mapSet_cons_ne q rest k v hq] at hp
      rw [List.mem_cons] at hp
      rcases hp with h | h
      · exact Or.inr (h ▸ List.mem_cons_self q rest)
      · rcases ih h with h2 | h2
        · exact Or.inl h2
        · exact Or.inr (List.mem_cons_of_mem q h2)

lemma mapDel_keys_mem (m : List (Nat × VPNState)) (k a : Nat) :
    a ∈ (mapDel m k).map Prod.fst ↔ a ∈ m.map Prod.fst ∧ a ≠ k := by
  unfold mapDel
  constructor
  · intro h
    rcases List.mem_map.mp h with ⟨p, hp, rfl⟩
    have hm := List.mem_filter.mp hp
    refine ⟨List.mem_map.mpr ⟨p, hm.1, rfl⟩, ?_⟩
    simpa using hm.2
  · rintro ⟨h1, h2⟩
    rcases List.mem_map.mp h1 with ⟨p, hp, rfl⟩
    exact List.mem_map.mpr ⟨p, List.mem_filter.mpr ⟨hp, by simpa using h2⟩, rfl⟩

lemma mapDel_keys_nodup (m : List (Nat × VPNState)) (k : Nat)
    (h : (m.map Prod.fst).Nodup) : ((mapDel m k).map Prod.fst).Nodup :=
  List.Nodup.sublist (List.Sublist.map Prod.fst (List.filter_sublist m)) h

lemma mapDel_mem_val (m : List (Nat × VPNState)) (k : Nat) (p : Nat × VPNState)
    (hp : p ∈ mapDel m k) : p ∈ m :=
  (List.mem_filter.mp hp).1

lemma mgrInv_init : MgrInv ⟨∅, []⟩ := by
  refine ⟨List.nodup_nil, fun k => ?_, fun p hp => absurd hp (List.not_mem_nil p)⟩
  simp

lemma mgrInv_step (s s' : MgrState) (out : Option TunnelsState)
    (h : MgrInv s) (hstep : MgrStep s s' out) : MgrInv s' := by
  obtain ⟨h1, h2, h3⟩ := h
  cases hstep with
  | startTunnelOk id hid =>
    refine ⟨mapSet_keys_nodup _ _ _ h1, fun k => ?_, fun p hp => ?_⟩
    · rw [Finset.mem_insert, mapSet_keys_mem, h2]
      tauto
    · rcases mapSet_mem_val _ _ _ p hp with hv | hv
      · rw [hv]
        intro hco
        exact VPNState.noConfusion hco
      · exact h3 p hv
  | startTunnelAlready id hid => exact ⟨h1, h2, h3⟩
  | startTunnelFail id => exact ⟨h1, h2, h3⟩
  | monitorState id st hid hst =>
    refine ⟨mapSet_keys_nodup _ _ _ h1, fun k => ?_, fun p hp => ?_⟩
    · rw [mapSet_keys_mem, ← h2]
      constructor
      · exact Or.inl
      · rintro (hk | rfl)
        · exact hk
        · exact hid
    · rcases mapSet_mem_val _ _ _ p hp with hv | hv
      · rw [hv]
        exact hst
      · exact h3 p hv
  | monitorExited id hid =>
    refine ⟨mapDel_keys_nodup _ _ h1, fun k => ?_, fun p hp => ?_⟩
    · rw [Finset.mem_erase, mapDel_keys_mem, h2]
      tauto
    · exact h3 p (mapDel_mem_val _ _ p hp)
  | closeTunnel id => exact ⟨h1, h2, h3⟩

lemma mgrInv_reachable (s : MgrState) (h : MgrReachable s) : MgrInv s := by
  induction h with
  | init => exact mgrInv_init
  | step s s' out hr hstep ih => exact mgrInv_step s s' out ih hstep

/-- C7: every `TunnelsState` emitted on the change channel by a reachable
supervisor contains at most one Tunnel per endpoint id, never contains a
Tunnel in state Exited, and its id set equals the key set of `tunnelVPNs`
(which equals the key set of `tunnelStates`) as of the write-lock window
that produced the snapshot. -/
theorem tunnelsState_snapshot_invariants (s s' : MgrState) (snap : TunnelsState)
    (hr : MgrReachable s) (hstep : MgrStep s s' (some snap)) :
    (snap.Tunnels.map Tunnel.endpointId).Nodup
    ∧ snap.Tunnels.all (fun t => t.state != VPNState.exited) = true
    ∧ (snap.Tunnels.map Tunnel.endpointId).toFinset = s'.tunnelVPNs
    ∧ (s'.tunnelStates.map Prod.fst).toFinset = s'.tunnelVPNs := by
  have hinv : MgrInv s' :=
    mgrInv_step s s' (some snap) (mgrInv_reachable s hr) hstep
  have hsnap : snap = newTunnelsState s'.tunnelStates := by
    cases hstep with
    | monitorState id st hid hst => rfl
    | monitorExited id hid => rfl
  obtain ⟨h1, h2, h3⟩ := hinv
  have hids : snap.Tunnels.map Tunnel.endpointId = s'.tunnelStates.map Prod.fst := by
    rw [hsnap]
    unfold newTunnelsState
    rw [List.map_map]
    rfl
  refine ⟨?_, ?_, ?_, ?_⟩
  · rw [hids]; exact h1
  · rw [List.all_eq_true]
    intro t ht
    rw [hsnap] at ht
    unfold newTunnelsState at ht
    rcases List.mem_map.mp ht with ⟨p, hp, rfl⟩
    simpa using h3 p hp
  · rw [hids]
    ext k
    rw [List.mem_toFinset, ← h2 k]
  · ext k
    rw [List.mem_toFinset, ← h2 k]

/-- Witness for C7: start a tunnel for id 5 from the empty supervisor, then
the monitor reports Connecting; the emitted snapshot is a single tunnel
`(5, Connecting)` whose ids match both map key sets. -/
theorem tunnelsState_snapshot_invariants_witness :
    (([⟨5, VPNState.connecting⟩] : List Tunnel).map Tunnel.endpointId).Nodup
    ∧ ([⟨5, VPNState.connecting⟩] : List Tunnel).all (fun t => t.state != VPNState.exited) = true
    ∧ (([⟨5, VPNState.connecting⟩] : List Tunnel).map Tunnel.endpointId).toFinset
        = ({5} : Finset Nat)
    ∧ (([(5, VPNState.connecting)] : List (Nat × VPNState)).map Prod.fst).toFinset
        = ({5} : Finset Nat) :=
  tunnelsState_snapshot_invariants
    ⟨{5}, [(5, VPNState.launching)]⟩
    ⟨{5}, [(5, VPNState.connecting)]⟩
    ⟨[⟨5, VPNState.connecting⟩]⟩
    (MgrReachable.step ⟨∅, []⟩ ⟨{5}, [(5, VPNState.launching)]⟩ none MgrReachable.init
      (MgrStep.startTunnelOk ⟨∅, []⟩ 5 (by decide)))
    (MgrStep.monitorState ⟨{5}, [(5, VPNState.launching)]⟩ 5 VPNState.connecting
      (by decide) (by decide))

/-- C8: `StartTunnel` is atomic on failure: if the id is already present in
`tunnelVPNs`, or process startup fails, it returns an error (it returns
normally, no panic: `startTunnel` is a total function) and the maps are
exactly as before; entries (with initial state Launching) are inserted only
when startup succeeds. -/
theorem startTunnel_failure_atomic (s : MgrState) (id : Nat) (r : StartResult) :
    ((startTunnel s id r).2 = true → (startTunnel s id r).1 = s)
    ∧ ((id ∈ s.tunnelVPNs ∨ r = StartResult.fail) → (startTunnel s id r).2 = true)
    ∧ ((startTunnel s id r).2 = false →
        id ∉ s.tunnelVPNs ∧ r = StartResult.ok
        ∧ (startTunnel s id r).1
            = ⟨insert id s.tunnelVPNs, mapSet s.tunnelStates id VPNState.launching⟩) := by
  unfold startTunnel
  by_cases h : id ∈ s.tunnelVPNs
  · simp [h]
  · cases r <;> simp [h]

/-- Witness for C8: starting id 5 when a tunnel for id 5 is already present
returns an error and leaves the state unchanged. -/
theorem startTunnel_failure_atomic_witness :
    (startTunnel ⟨{5}, [(5, VPNState.launching)]⟩ 5 StartResult.ok).2 = true
    ∧ (startTunnel ⟨{5}, [(5, VPNState.launching)]⟩ 5 StartResult.ok).1
        = ⟨{5}, [(5, VPNState.launching)]⟩ :=
  ⟨(startTunnel_failure_atomic ⟨{5}, [(5, VPNState.launching)]⟩ 5 StartResult.ok).2.1
      (Or.inl (by decide)),
    (startTunnel_failure_atomic ⟨{5}, [(5, VPNState.launching)]⟩ 5 StartResult.ok).1
      ((startTunnel_failure_atomic ⟨{5}, [(5, VPNState.launching)]⟩ 5 StartResult.ok).2.1
        (Or.inl (by decide)))⟩

/-! ### OpenVPN state-translation monitor (src/openvpn.go lines 309-355) -/

/-- A management-interface event as seen by the monitor goroutine: a hold
event, a state event carrying the OpenVPN state name, or any other event
type (ignored by the monitor). -/
inductive MgmtEvent where
  | hold
  | state (name : String)
  | otherEvent
deriving DecidableEq, Repr

/-- The event-processing loop of the monitor goroutine (src/openvpn.go lines
321-351), emitting VPN states while tracking `connectTries`. A hold event
causes no emission whether or not the hold release succeeds (a failure is
only logged); unknown state names and other event types emit nothing. -/
def monitorLoop : List MgmtEvent → Nat → List VPNState
  | [], _ => []
  | MgmtEvent.hold :: rest, connectTries => monitorLoop rest connectTries
  | MgmtEvent.state n :: rest, connectTries =>
    if n = "CONNECTING" ∨ n = "RECONNECTING" then
      (if 0 < connectTries then VPNState.retrying else VPNState.connecting)
        :: monitorLoop rest (connectTries + 1)
    else if n = "CONNECTED" then VPNState.connected :: monitorLoop rest 0
    else if n = "EXITING" then VPNState.exiting :: monitorLoop rest connectTries
    else monitorLoop rest connectTries
  | MgmtEvent.otherEvent :: rest, connectTries => monitorLoop rest connectTries

/-- The complete sequence of VPN states the monitor goroutine emits on the
state channel for a given sequence of management events: `Launching`, then
`Connecting` (with `connectTries` initialized to 1), then the translation of
each event, and finally `Exited` when the event channel closes
(src/openvpn.go lines 311-355). -/
def monitorEmits (events : List MgmtEvent) : List VPNState :=
  VPNState.launching :: VPNState.connecting :: (monitorLoop events 1 ++ [VPNState.exited])

lemma monitorLoop_mem (evs : List MgmtEvent) (tries : Nat) (st : VPNState)
    (h : st ∈ monitorLoop evs tries) :
    st ≠ VPNState.launching ∧ st ≠ VPNState.exited := by
  induction evs generalizing tries with
  | nil => simp [monitorLoop] at h
  | cons e rest ih =>
    cases e with
    | hold => exact ih _ h
    | otherEvent => exact ih _ h
    | state n =>
      simp only [monitorLoop] at h
      split at h
      · rw [List.mem_cons] at h
        rcases h with rfl | h
        · refine ⟨?_, ?_⟩ <;> (split <;> decide)
        · exact ih _ h
      · split at h
        · rw [List.mem_cons] at h
          rcases h with rfl | h
          · exact ⟨by decide, by decide⟩
          · exact ih _ h
        · split at h
          · rw [List.mem_cons] at h
            rcases h with rfl | h
            · exact ⟨by decide, by decide⟩
            · exact ih _ h
          · exact ih _ h

lemma monitorEmits_append (events : List MgmtEvent) :
    monitorEmits events
      = ([VPNState.launching, VPNState.connecting] ++ monitorLoop events 1)
          ++ [VPNState.exited] := by
  simp [monitorEmits]

/-- C9 counterexample: for the management-event sequence
`State("CONNECTED"), State("RECONNECTING")` the monitor emits
`Launching, Connecting, Connected, Connecting, Exited`: the state
`Connecting` — earlier in the claimed order than `Connected` and not
Exiting/Exited — is emitted right after `Connected` (the code resets
`connectTries` to 0 on CONNECTED, so the first reconnect attempt is
reported as Connecting by design). -/
theorem monitor_order_counterexample :
    (monitorEmits [MgmtEvent.state "CONNECTED", MgmtEvent.state "RECONNECTING"]).get? 2
        = some VPNState.connected
    ∧ (monitorEmits [MgmtEvent.state "CONNECTED", MgmtEvent.state "RECONNECTING"]).get? 3
        = some VPNState.connecting := by decide

/-- C9 amended: for every management-event sequence, the emitted sequence
begins `Launching` then `Connecting`; `Launching` is emitted exactly once;
`Exited` is emitted exactly once, as the final state (terminal, nothing
follows it); and everything strictly between the initial pair and the final
`Exited` is one of Connecting, Retrying, Connected, Exiting — in
particular, after `Connected` the monitor may re-enter `Connecting` and the
Retrying/Connecting cycle on reconnection, in addition to Exiting/Exited. -/
theorem monitor_emission_structure (events : List MgmtEvent) :
    (monitorEmits events).take 2 = [VPNState.launching, VPNState.connecting]
    ∧ (monitorEmits events).getLast? = some VPNState.exited
    ∧ List.count VPNState.launching (monitorEmits events) = 1
    ∧ List.count VPNState.exited (monitorEmits events) = 1
    ∧ (((monitorEmits events).drop 2).dropLast.all
        (fun st => st ∈ [VPNState.connecting, VPNState.retrying, VPNState.connected,
          VPNState.exiting])) = true := by
  have hloop1 : VPNState.launching ∉ monitorLoop events 1 := by
    intro h
    exact (monitorLoop_mem events 1 _ h).1 rfl
  have hloop2 : VPNState.exited ∉ monitorLoop events 1 := by
    intro h
    exact (monitorLoop_mem events 1 _ h).2 rfl
  refine ⟨rfl, ?_, ?_, ?_, ?_⟩
  · rw [monitorEmits_append, List.getLast?_concat]
  · rw [monitorEmits_append, List.count_append, List.count_append]
    rw [List.count_eq_zero.mpr hloop1]
    decide
  · rw [monitorEmits_append, List.count_append, List.count_append]
    rw [List.count_eq_zero.mpr hloop2]
    decide
  · have hdrop : (monitorEmits events).drop 2 = monitorLoop events 1 ++ [VPNState.exited] := rfl
    rw [hdrop, List.dropLast_concat, List.all_eq_true]
    intro st hst
    have hm := monitorLoop_mem events 1 st hst
    cases st <;> simp_all
